import Mathlib

/-!
Verification development for terraform-provider-azurerm: the blueprint definition data
source, the storage resource IDs and the managed application acceptance configurations.

Shallow embedding of

* `internal/services/storage/resourceids.go`: the eleven `go:generate` directives, with the
  parser and formatter each of them stands for;
* `internal/services/blueprints/blueprint_definition_data_source.go`: the read handler
  `dataSourceBlueprintDefinitionRead`, as a pure function of the resource data and of the
  answers of the two SDK clients;
* `internal/services/managedapplications/managed_application_resource_test.go`: the HCL
  configurations built by `basic`, `complete` and `template`, and the steps of
  `testAccManagedApplication_update`.

Go strings are embedded as `String`; a Go string that is not valid UTF-8 has no counterpart.
-/

namespace Storage

/-- One `go:generate` line of `resourceids.go`: the flags `-path`, `-name` and `-id` passed to
`tools/generator-resource-id`. -/
structure Directive where
  path : String
  name : String
  id : String
  deriving DecidableEq

/-- The directives of `resourceids.go`, in file order (lines 6 to 16). -/
def resourceids : List Directive := [
  ⟨"./", "BlobInventoryPolicy", "/subscriptions/12345678-1234-9876-4563-123456789012/resourceGroups/resGroup1/providers/Microsoft.Storage/storageAccounts/storageAccount1/inventoryPolicies/inventoryPolicy1"⟩,
  ⟨"./", "EncryptionScope", "/subscriptions/12345678-1234-9876-4563-123456789012/resourceGroups/resGroup1/providers/Microsoft.Storage/storageAccounts/storageAccount1/encryptionScopes/encryptionScope1"⟩,
  ⟨"./", "StorageAccount", "/subscriptions/12345678-1234-9876-4563-123456789012/resourceGroups/resGroup1/providers/Microsoft.Storage/storageAccounts/storageAccount1"⟩,
  ⟨"./", "StorageAccountDefaultBlob", "/subscriptions/12345678-1234-9876-4563-123456789012/resourceGroups/resGroup1/providers/Microsoft.Storage/storageAccounts/storageAccount1/blobServices/default"⟩,
  ⟨"./", "StorageContainerResourceManager", "/subscriptions/12345678-1234-9876-4563-123456789012/resourceGroups/resGroup1/providers/Microsoft.Storage/storageAccounts/storageAccount1/blobServices/default/containers/container1"⟩,
  ⟨"./", "StorageQueueResourceManager", "/subscriptions/12345678-1234-9876-4563-123456789012/resourceGroups/resGroup1/providers/Microsoft.Storage/storageAccounts/storageAccount1/queueServices/default/queues/queue1"⟩,
  ⟨"./", "StorageShareResourceManager", "/subscriptions/12345678-1234-9876-4563-123456789012/resourceGroups/resGroup1/providers/Microsoft.Storage/storageAccounts/storageAccount1/fileServices/fileService1/fileshares/share1"⟩,
  ⟨"./", "StorageSyncGroup", "/subscriptions/12345678-1234-9876-4563-123456789012/resourceGroups/resGroup1/providers/Microsoft.StorageSync/storageSyncServices/storageSyncService1/syncGroups/syncGroup1"⟩,
  ⟨"./", "StorageSyncService", "/subscriptions/12345678-1234-9876-4563-123456789012/resourceGroups/resGroup1/providers/Microsoft.StorageSync/storageSyncServices/storageSyncService1"⟩,
  ⟨"./", "StorageSyncCloudEndpoint", "/subscriptions/12345678-1234-9876-4563-123456789012/resourceGroups/resGroup1/providers/Microsoft.StorageSync/storageSyncServices/storageSyncService1/syncGroups/syncGroup1/cloudEndpoints/cloudEndpoint1"⟩,
  ⟨"./", "StorageAccountManagementPolicy", "/subscriptions/12345678-1234-9876-4563-123456789012/resourceGroups/resGroup1/providers/Microsoft.Storage/storageAccounts/storageAccount1/managementPolicies/policy1"⟩]

/-- Path segments of an ID: `strings.Split(s, "/")`. -/
def segments (s : String) : List String :=
  (s.data.splitOn '/').map String.mk

/-- A position of an ID shape: a fixed name, or a slot for a value. -/
inductive Segment where
  | fixed (name : String)
  | value
  deriving DecidableEq

/-- Modelled from the spec: reading the path `/subscriptions/{sub}/resourceGroups/{rg}/
providers/{provider}/{resourceType}/{name}[...]` from position `i` on, the segments at even
positions are fixed keys, position 5 is the fixed provider namespace, every other one is a
value. -/
def shapeFrom : Nat → List String → List Segment
  | _, [] => []
  | i, s :: ss => (if i % 2 = 0 ∨ i = 5 then Segment.fixed s else Segment.value) :: shapeFrom (i + 1) ss

/-- Modelled from the spec: the fixed path shape of a resource type, read off its `-id`
example after the leading empty segment. -/
def shapeOf (exampleId : String) : List Segment :=
  shapeFrom 0 ((segments exampleId).drop 1)

/-- Modelled from the spec: the struct a generated parser returns, holding the subscription,
the resource group and the names that follow the resource-type keys, in path order. -/
structure ResourceId where
  SubscriptionId : String
  ResourceGroup : String
  Names : List String
  deriving DecidableEq

/-- Modelled from the spec: matching of input segments against a shape; it fails when the
segment count or a fixed name differs, and otherwise yields the values in path order. -/
def matchSegments : List Segment → List String → Option (List String)
  | [], [] => some []
  | Segment.fixed k :: sh, s :: ss => if s = k then matchSegments sh ss else none
  | Segment.value :: sh, s :: ss => (matchSegments sh ss).map (s :: ·)
  | _, _ => none

/-- Modelled from the spec: the parser generated for a resource type is absent from the
sources; it is the "pure string-to-struct parser" of the type whose `-id` example is
`exampleId`, which "fails ... when segment count/names don't match the expected shape"
(`none` stands for the error). -/
def parse (exampleId input : String) : Option ResourceId :=
  match segments input with
  | "" :: rest =>
    match matchSegments (shapeOf exampleId) rest with
    | some (sub :: rg :: names) => some ⟨sub, rg, names⟩
    | _ => none
  | _ => none

/-- Modelled from the spec: the segments of a formatted ID, the fixed names of the shape with
the values put in the slots in order (an empty segment where values run out). -/
def fill : List Segment → List String → List String
  | [], _ => []
  | Segment.fixed k :: sh, vs => k :: fill sh vs
  | Segment.value :: sh, v :: vs => v :: fill sh vs
  | Segment.value :: sh, [] => "" :: fill sh []

/-- Modelled from the spec: the formatter of a resource type is absent from the sources; it
writes the fixed path shape of the type, every segment behind a `/`. -/
def format (exampleId : String) (id : ResourceId) : String :=
  (fill (shapeOf exampleId) (id.SubscriptionId :: id.ResourceGroup :: id.Names)).foldr
    (fun s acc => "/" ++ s ++ acc) ""

/-- Number of value slots of a shape. -/
def valueCount (sh : List Segment) : Nat := sh.count Segment.value

/-- The fixed names of a shape, in path order. -/
def fixedNames (sh : List Segment) : List String :=
  sh.filterMap fun seg => match seg with
    | Segment.fixed s => some s
    | Segment.value => none

end Storage

namespace Blueprints

/-- Value of a schema field: `TypeString` or `TypeList` of `TypeString`. -/
inductive Value where
  | str (s : String)
  | list (xs : List String)
  deriving DecidableEq

/-- The part of `pluginsdk.ResourceData` the read handler touches: the persisted ID and the
flat mapping from field name to value. -/
structure ResourceData where
  id : String
  fields : String → Option Value

/-- Go `d.Get(key).(string)`: the zero value `""` when the field is unset. -/
def ResourceData.Get (d : ResourceData) (key : String) : String :=
  match d.fields key with
  | some (Value.str s) => s
  | _ => ""

/-- Go `d.SetId(v)`. -/
def ResourceData.SetId (d : ResourceData) (v : String) : ResourceData :=
  { d with id := v }

/-- Go `d.Set(key, v)`; the handler discards the error result. -/
def ResourceData.Set (d : ResourceData) (key : String) (v : Value) : ResourceData :=
  { d with fields := fun k => if k = key then some v else d.fields k }

/-- Go `resp.Status`, with each timestamp held as the text its `.String()` renders. -/
structure BlueprintStatus where
  LastModified : String
  TimeCreated : String
  deriving DecidableEq

/-- The fields of the SDK `Get` response the handler reads. `Response` is the HTTP status code
of the underlying response (`none` when there is no response), pointer fields are `Option`. -/
structure Model where
  Response : Option Nat
  ID : Option String
  Description : Option String
  DisplayName : Option String
  Status : BlueprintStatus
  TargetScope : String
  deriving DecidableEq

/-- One entry of `versions.Values()`. Only nil-ness of `PublishedBlueprintProperties` is
consulted by the handler. -/
structure PublishedBlueprint where
  PublishedBlueprintProperties : Option Unit
  Name : Option String
  deriving DecidableEq

/-- The two SDK clients taken from `meta`: each call yields its result and an optional error,
the error held as the text `%+v` renders. Arguments are `scope` then `name`. -/
structure Client where
  BlueprintsClient : String → String → Model × Option String
  PublishedBlueprintsClient : String → String → List PublishedBlueprint × Option String

/-- SDK calls issued by a handler run, in order. -/
inductive Call where
  | Get (scope name : String)
  | List (scope name : String)
  deriving DecidableEq

/-- Outcome of a handler run: the resource data afterwards, the returned error (its message)
and the SDK calls made. -/
structure ReadResult where
  d : ResourceData
  err : Option String
  calls : List Call

/-- Modelled from the spec: `utils.ResponseWasNotFound` is not among the sources; the backend
"reports not-found" when the response carries HTTP status 404. -/
def ResponseWasNotFound (resp : Option Nat) : Bool :=
  resp == some 404

/-- Go `lowerhex` of `strconv`. -/
def lowerhex : List Char := "0123456789abcdef".data

/-- The digit `lowerhex[n & 0xF]`. -/
def hexDigit (n : Nat) : Char := lowerhex.getD (n % 16) '0'

/-- Go `strconv.IsPrint`: exact on Latin-1; `table` stands for the Unicode tables used above
U+00FF. -/
def IsPrint (table : Char → Bool) (r : Char) : Bool :=
  if r.toNat ≤ 0xFF then
    if 0x20 ≤ r.toNat ∧ r.toNat < 0x7F then true
    else if 0xA1 ≤ r.toNat then r.toNat != 0xAD
    else false
  else table r

/-- Go `strconv.appendEscapedRune` for the double quote, neither ASCII-only nor graphic-only. -/
def appendEscapedRune (table : Char → Bool) (r : Char) : List Char :=
  if r = '"' ∨ r = '\\' then ['\\', r]
  else if IsPrint table r then [r]
  else if r.toNat = 0x07 then ['\\', 'a']
  else if r.toNat = 0x08 then ['\\', 'b']
  else if r.toNat = 0x0C then ['\\', 'f']
  else if r.toNat = 0x0A then ['\\', 'n']
  else if r.toNat = 0x0D then ['\\', 'r']
  else if r.toNat = 0x09 then ['\\', 't']
  else if r.toNat = 0x0B then ['\\', 'v']
  else if r.toNat < 0x20 ∨ r.toNat = 0x7F then
    ['\\', 'x', hexDigit (r.toNat / 16), hexDigit r.toNat]
  else if r.toNat < 0x10000 then
    ['\\', 'u', hexDigit (r.toNat / 4096), hexDigit (r.toNat / 256), hexDigit (r.toNat / 16),
      hexDigit r.toNat]
  else
    ['\\', 'U', hexDigit (r.toNat / 268435456), hexDigit (r.toNat / 16777216),
      hexDigit (r.toNat / 1048576), hexDigit (r.toNat / 65536), hexDigit (r.toNat / 4096),
      hexDigit (r.toNat / 256), hexDigit (r.toNat / 16), hexDigit r.toNat]

/-- The `%q` verb of `fmt` on a string (`strconv.Quote`). -/
def Quote (table : Char → Bool) (s : String) : String :=
  ⟨'"' :: (s.data.flatMap (appendEscapedRune table) ++ ['"'])⟩

/-- The version loop: entries with a nil `PublishedBlueprintProperties` or a nil `Name` are
skipped, the others append their name. -/
def versionLoop : List PublishedBlueprint → List String → List String
  | [], versionList => versionList
  | version :: rest, versionList =>
    match version.PublishedBlueprintProperties, version.Name with
    | some _, some n => versionLoop rest (versionList ++ [n])
    | _, _ => versionLoop rest versionList

/-- The read handler. `table` is the Unicode table of `%q` (see `IsPrint`), `client` answers
the two SDK calls, `d` is the resource data on entry. Every `return` of the Go function is one
`ReadResult`: the data as left behind, the error message if any, and the SDK calls made. -/
def dataSourceBlueprintDefinitionRead (table : Char → Bool) (client : Client)
    (d : ResourceData) : ReadResult :=
  let name := d.Get "name"
  let scope := d.Get "scope_id"
  let (resp, err) := client.BlueprintsClient scope name
  match err with
  | some e =>
    if ResponseWasNotFound resp.Response then
      ⟨d, some ("Blueprint Definition " ++ Quote table name ++ " not found in Scope ("
        ++ Quote table scope ++ "): " ++ e), [Call.Get scope name]⟩
    else
      ⟨d, some ("Read failed for Blueprint Definition (" ++ Quote table name ++ ") in Sccope ("
        ++ Quote table scope ++ "): " ++ e), [Call.Get scope name]⟩
  | none =>
    match resp.ID with
    | none =>
      ⟨d, some ("Failed to retrieve ID for Blueprint " ++ Quote table name), [Call.Get scope name]⟩
    | some id =>
      if id = "" then
        ⟨d, some ("Failed to retrieve ID for Blueprint " ++ Quote table name),
          [Call.Get scope name]⟩
      else
        let d := d.SetId id
        let d := match resp.Description with
          | some v => d.Set "description" (Value.str v)
          | none => d
        let d := match resp.DisplayName with
          | some v => d.Set "display_name" (Value.str v)
          | none => d
        let d := d.Set "last_modified" (Value.str resp.Status.LastModified)
        let d := d.Set "time_created" (Value.str resp.Status.TimeCreated)
        let d := d.Set "target_scope" (Value.str resp.TargetScope)
        let (versions, err) := client.PublishedBlueprintsClient scope name
        match err with
        | some e =>
          ⟨d, some ("listing blue print versions for " ++ id ++ " error: " ++ e),
            [Call.Get scope name, Call.List scope name]⟩
        | none =>
          let versionList := versionLoop versions []
          ⟨d.Set "versions" (Value.list versionList), none,
            [Call.Get scope name, Call.List scope name]⟩

/-- Substring test on messages, as `strings.Contains`. -/
def Contains (s sub : String) : Prop := sub.data <:+: s.data

instance (s sub : String) : Decidable (Contains s sub) := by
  unfold Contains
  infer_instance

/-- Sample resource data: a fresh data source with `name` and `scope_id` configured. -/
def sampleData : ResourceData :=
  ⟨"", fun k => if k = "name" then some (Value.str "bp1")
    else if k = "scope_id" then some (Value.str "/subscriptions/0000") else none⟩

/-- Sample resource data whose `name` holds a double quote. -/
def quotedNameData : ResourceData :=
  ⟨"", fun k => if k = "name" then some (Value.str "a\"b")
    else if k = "scope_id" then some (Value.str "/subscriptions/0000") else none⟩

/-- A Unicode table under which no rune above U+00FF is printable. -/
def asciiOnly : Char → Bool := fun _ => false

/-- Sample successful `Get` response. -/
def sampleModel : Model :=
  ⟨some 200, some "/subscriptions/0000/providers/Microsoft.Blueprint/blueprints/bp1",
    some "a description", none, ⟨"2020-01-02T00:00:00Z", "2020-01-01T00:00:00Z"⟩, "subscription"⟩

/-- Sample backend: `Get` fails with HTTP 404. -/
def notFoundClient : Client :=
  ⟨fun _ _ => (⟨some 404, none, none, none, ⟨"", ""⟩, ""⟩, some "StatusCode=404"),
    fun _ _ => ([], none)⟩

/-- Sample backend: `Get` fails with HTTP 500. -/
def failingClient : Client :=
  ⟨fun _ _ => (⟨some 500, none, none, none, ⟨"", ""⟩, ""⟩, some "StatusCode=500"),
    fun _ _ => ([], none)⟩

/-- Sample backend: `Get` succeeds and four published versions are listed. -/
def okClient : Client :=
  ⟨fun _ _ => (sampleModel, none),
    fun _ _ => ([⟨some (), some "v1"⟩, ⟨none, some "v2"⟩, ⟨some (), none⟩, ⟨some (), some "v3"⟩], none)⟩

/-- Sample backend: `Get` succeeds with an empty ID. -/
def noIdClient : Client :=
  ⟨fun _ _ => ({ sampleModel with ID := some "" }, none), fun _ _ => ([], none)⟩

/-- Sample backend: `Get` succeeds and the listing fails. -/
def listFailingClient : Client :=
  ⟨fun _ _ => (sampleModel, none), fun _ _ => ([], some "StatusCode=500")⟩

end Blueprints

namespace ManagedApplications

/-- The fields of `acceptance.TestData` the configuration builders read. -/
structure TestData where
  RandomInteger : Int
  RandomString : String
  LocationsPrimary : String

/-- Scalar HCL expressions. -/
inductive Atom where
  | lit (s : String)
  | ref (path : List String)
  | bool (b : Bool)
  | raw (src : String)
  deriving DecidableEq

/-- HCL attribute values: a scalar, an object of scalars, or a heredoc. -/
inductive Expr where
  | atom (a : Atom)
  | map (entries : List (String × Atom))
  | heredoc (text : String)
  deriving DecidableEq

/-- A nested block such as `plan { ... }`. -/
structure SubBlock where
  name : String
  attrs : List (String × Atom)
  deriving DecidableEq

/-- A top-level block: `kind` is `provider`, `data` or `resource`. -/
structure Block where
  kind : String
  labels : List String
  attrs : List (String × Expr)
  blocks : List SubBlock
  deriving DecidableEq

/-- An HCL configuration: its top-level blocks in order. -/
abbrev Config := List Block

/-- Go `fmt.Sprintf("%d", n)`. -/
def fmtD (n : Int) : String := toString n

/-- The configuration built by `ManagedApplicationResource.template`. -/
def template (data : TestData) : Config := [
  ⟨"provider", ["azurerm"], [], [⟨"features", []⟩]⟩,
  ⟨"data", ["azurerm_client_config", "test"], [], []⟩,
  ⟨"data", ["azurerm_role_definition", "test"],
    [("name", Expr.atom (Atom.lit "Contributor"))], []⟩,
  ⟨"resource", ["azurerm_resource_group", "test"],
    [("name", Expr.atom (Atom.lit ("acctestRG-mapp-" ++ fmtD data.RandomInteger))),
     ("location", Expr.atom (Atom.lit data.LocationsPrimary))], []⟩,
  ⟨"resource", ["azurerm_managed_application_definition", "test"],
    [("name", Expr.atom (Atom.lit ("acctestManagedAppDef" ++ fmtD data.RandomInteger))),
     ("location", Expr.atom (Atom.ref ["azurerm_resource_group", "test", "location"])),
     ("resource_group_name", Expr.atom (Atom.ref ["azurerm_resource_group", "test", "name"])),
     ("lock_level", Expr.atom (Atom.lit "ReadOnly")),
     ("package_file_uri", Expr.atom (Atom.lit "https://github.com/Azure/azure-managedapp-samples/raw/master/Managed Application Sample Packages/201-managed-storage-account/managedstorage.zip")),
     ("display_name", Expr.atom (Atom.lit "TestManagedAppDefinition")),
     ("description", Expr.atom (Atom.lit "Test Managed App Definition")),
     ("package_enabled", Expr.atom (Atom.bool true))],
    [⟨"authorization",
      [("service_principal_id", Atom.ref ["data", "azurerm_client_config", "test", "object_id"]),
       ("role_definition_id", Atom.raw "split(\"/\", data.azurerm_role_definition.test.id)[length(split(\"/\", data.azurerm_role_definition.test.id)) - 1]")]⟩]⟩]

/-- The configuration built by `ManagedApplicationResource.basic`: the template followed by
the managed application of kind `ServiceCatalog`. -/
def basic (data : TestData) : Config :=
  template data ++ [
  ⟨"resource", ["azurerm_managed_application", "test"],
    [("name", Expr.atom (Atom.lit ("acctestManagedApp" ++ fmtD data.RandomInteger))),
     ("location", Expr.atom (Atom.ref ["azurerm_resource_group", "test", "location"])),
     ("resource_group_name", Expr.atom (Atom.ref ["azurerm_resource_group", "test", "name"])),
     ("kind", Expr.atom (Atom.lit "ServiceCatalog")),
     ("managed_resource_group_name", Expr.atom (Atom.lit ("infraGroup" ++ fmtD data.RandomInteger))),
     ("application_definition_id",
       Expr.atom (Atom.ref ["azurerm_managed_application_definition", "test", "id"])),
     ("parameters", Expr.map [
       ("location", Atom.ref ["azurerm_resource_group", "test", "location"]),
       ("storageAccountNamePrefix", Atom.lit ("store" ++ data.RandomString)),
       ("storageAccountType", Atom.lit "Standard_LRS")])],
    []⟩]

/-- The configuration built by `ManagedApplicationResource.complete`. -/
def complete (data : TestData) : Config := [
  ⟨"provider", ["azurerm"], [], [⟨"features", []⟩]⟩,
  ⟨"resource", ["azurerm_resource_group", "test"],
    [("name", Expr.atom (Atom.lit ("acctestRG-mapp-" ++ fmtD data.RandomInteger))),
     ("location", Expr.atom (Atom.lit data.LocationsPrimary))], []⟩,
  ⟨"resource", ["azurerm_marketplace_agreement", "test"],
    [("publisher", Expr.atom (Atom.lit "cisco")),
     ("offer", Expr.atom (Atom.lit "cisco-meraki-vmx")),
     ("plan", Expr.atom (Atom.lit "cisco-meraki-vmx"))], []⟩,
  ⟨"resource", ["azurerm_managed_application", "test"],
    [("name", Expr.atom (Atom.lit ("acctestCompleteManagedApp" ++ fmtD data.RandomInteger))),
     ("location", Expr.atom (Atom.ref ["azurerm_resource_group", "test", "location"])),
     ("resource_group_name", Expr.atom (Atom.ref ["azurerm_resource_group", "test", "name"])),
     ("kind", Expr.atom (Atom.lit "MarketPlace")),
     ("managed_resource_group_name",
       Expr.atom (Atom.lit ("completeInfraGroup" ++ fmtD data.RandomInteger))),
     ("parameters", Expr.map [
       ("zone", Atom.lit "0"),
       ("location", Atom.ref ["azurerm_resource_group", "test", "location"]),
       ("merakiAuthToken", Atom.lit "f451adfb-d00b-4612-8799-b29294217d4a"),
       ("subnetAddressPrefix", Atom.lit "10.0.0.0/24"),
       ("subnetName", Atom.lit "acctestSubnet"),
       ("virtualMachineSize", Atom.lit "Standard_DS12_v2"),
       ("virtualNetworkAddressPrefix", Atom.lit "10.0.0.0/16"),
       ("virtualNetworkName", Atom.lit "acctestVnet"),
       ("virtualNetworkNewOrExisting", Atom.lit "new"),
       ("virtualNetworkResourceGroup", Atom.lit "acctestVnetRg"),
       ("vmName", Atom.lit "acctestVM")]),
     ("tags", Expr.map [("ENV", Atom.lit "Test")])],
    [⟨"plan",
      [("name", Atom.ref ["azurerm_marketplace_agreement", "test", "plan"]),
       ("product", Atom.ref ["azurerm_marketplace_agreement", "test", "offer"]),
       ("publisher", Atom.ref ["azurerm_marketplace_agreement", "test", "publisher"]),
       ("version", Atom.lit "15.37.1")]⟩]⟩]

/-- Checks composed into a test step. -/
inductive Check where
  | ExistsInAzure
  | KeyHasValue (key value : String)
  deriving DecidableEq

/-- An `acceptance.TestStep`: a configuration with its checks, or `data.ImportStep()`. -/
inductive TestStep where
  | Apply (config : Config) (check : List Check)
  | ImportStep
  deriving DecidableEq

/-- The steps of `testAccManagedApplication_update`. -/
def testAccManagedApplication_update (data : TestData) : List TestStep := [
  TestStep.Apply (basic data) [Check.ExistsInAzure, Check.KeyHasValue "kind" "ServiceCatalog"],
  TestStep.ImportStep,
  TestStep.Apply (complete data) [Check.ExistsInAzure, Check.KeyHasValue "kind" "MarketPlace"],
  TestStep.ImportStep,
  TestStep.Apply (basic data) [Check.ExistsInAzure, Check.KeyHasValue "kind" "ServiceCatalog"],
  TestStep.ImportStep]

/-- Configurations applied by a test, in step order. -/
def stepConfigs (steps : List TestStep) : List Config :=
  steps.filterMap fun st => match st with
    | TestStep.Apply c _ => some c
    | TestStep.ImportStep => none

/-- The resource block `resource "<type>" "<name>"` of a configuration. -/
def findResource (cfg : Config) (type name : String) : Option Block :=
  cfg.find? fun b => b.kind = "resource" ∧ b.labels = [type, name]

/-- Value of an attribute of a resource: a string literal is itself, a reference
`<type>.<name>.<attr>` to a string literal of another resource of the configuration is that
literal. -/
def attrValue (cfg : Config) (type name key : String) : Option String :=
  match (findResource cfg type name).bind fun b => b.attrs.lookup key with
  | some (Expr.atom (Atom.lit s)) => some s
  | some (Expr.atom (Atom.ref [t, n, a])) =>
    match (findResource cfg t n).bind fun b => b.attrs.lookup a with
    | some (Expr.atom (Atom.lit s)) => some s
    | _ => none
  | _ => none

/-- Value of a field of `azurerm_managed_application.test`. -/
def fieldValue (cfg : Config) (key : String) : Option String :=
  attrValue cfg "azurerm_managed_application" "test" key

/-- Sample test data. -/
def sampleTestData : TestData := ⟨220101, "abcde", "westeurope"⟩

end ManagedApplications

set_option maxRecDepth 1000000

namespace Storage

theorem splitOn_slash_joined (s : List Char) (t : List (List Char))
    (hs : '/' ∉ s) (ht : ∀ x ∈ t, '/' ∉ x) :
    (s ++ t.foldr (fun x acc => '/' :: (x ++ acc)) []).splitOn '/' = s :: t := by
  induction t generalizing s with
  | nil =>
    simp only [List.foldr_nil, List.append_nil, List.splitOn]
    exact List.splitOnP_eq_single _ _ (fun x hx h => hs (by rw [← eq_of_beq h]; exact hx))
  | cons a t ih =>
    simp only [List.foldr_cons, List.splitOn]
    rw [List.splitOnP_first _ _ (fun x hx h => hs (by rw [← eq_of_beq h]; exact hx)) '/' (by simp)]
    have := ih a (ht a (List.mem_cons_self _ _)) (fun x hx => ht x (List.mem_cons_of_mem _ hx))
    simp only [List.splitOn] at this
    rw [this]

theorem data_foldr_slash (l : List String) :
    (l.foldr (fun s acc => "/" ++ s ++ acc) "").data =
      (l.map String.data).foldr (fun x acc => '/' :: (x ++ acc)) [] := by
  induction l with
  | nil => rfl
  | cons a l ih => simp [String.data_append, ih]

theorem segments_foldr_slash (l : List String) (h : ∀ s ∈ l, '/' ∉ s.data) :
    segments (l.foldr (fun s acc => "/" ++ s ++ acc) "") = "" :: l := by
  unfold segments
  rw [data_foldr_slash]
  have := splitOn_slash_joined [] (l.map String.data) (by simp)
    (by intro x hx; obtain ⟨s, hs, rfl⟩ := List.mem_map.1 hx; exact h s hs)
  simp only [List.nil_append] at this
  rw [this]
  simp [List.map_map, Function.comp_def]

theorem matchSegments_fill (sh : List Segment) (vs : List String)
    (h : valueCount sh = vs.length) : matchSegments sh (fill sh vs) = some vs := by
  induction sh generalizing vs with
  | nil =>
    cases vs with
    | nil => rfl
    | cons v vs => simp [valueCount] at h
  | cons seg sh ih =>
    cases seg with
    | fixed k =>
      have h' : valueCount sh = vs.length := by simpa [valueCount] using h
      simp [fill, matchSegments, ih vs h']
    | value =>
      cases vs with
      | nil => simp [valueCount] at h
      | cons v vs =>
        have h' : valueCount sh = vs.length := by simpa [valueCount] using h
        simp [fill, matchSegments, ih vs h']

theorem mem_fill (sh : List Segment) (vs : List String) (s : String) (hs : s ∈ fill sh vs) :
    Segment.fixed s ∈ sh ∨ s ∈ vs ∨ s = "" := by
  induction sh generalizing vs with
  | nil => simp [fill] at hs
  | cons seg sh ih =>
    cases seg with
    | fixed k =>
      simp only [fill, List.mem_cons] at hs
      rcases hs with rfl | hs
      · simp
      · rcases ih vs hs with h | h | h <;> simp [h]
    | value =>
      cases vs with
      | nil =>
        simp only [fill, List.mem_cons] at hs
        rcases hs with rfl | hs
        · simp
        · rcases ih [] hs with h | h | h <;> simp [h] at *
      | cons v vs =>
        simp only [fill, List.mem_cons] at hs
        rcases hs with rfl | hs
        · simp
        · rcases ih vs hs with h | h | h <;> simp [h]

theorem parse_format_of_shape (e : String) (id : ResourceId)
    (hfix : ∀ s, Segment.fixed s ∈ shapeOf e → '/' ∉ s.data)
    (hlen : valueCount (shapeOf e) = 2 + id.Names.length)
    (hval : ∀ v ∈ id.SubscriptionId :: id.ResourceGroup :: id.Names, '/' ∉ v.data) :
    parse e (format e id) = some id := by
  unfold parse format
  rw [segments_foldr_slash]
  · simp only
    rw [matchSegments_fill _ _ (by simp [hlen]; omega)]
  · intro s hs
    rcases mem_fill _ _ _ hs with h | h | h
    · exact hfix s h
    · exact hval s h
    · subst h; simp

theorem fixed_segments_no_slash :
    ∀ d ∈ resourceids, ∀ s ∈ fixedNames (shapeOf d.id), '/' ∉ s.data := by
  decide

theorem mem_fixedNames (sh : List Segment) (s : String) (h : Segment.fixed s ∈ sh) :
    s ∈ fixedNames sh := by
  unfold fixedNames
  exact List.mem_filterMap.2 ⟨_, h, rfl⟩

/-- C3: for each of the eleven resource-ID types of `resourceids.go` and every ID of that type
(as many names as the type has resource-type keys) whose segment values are non-empty and hold
no `/`, parsing the formatted ID gives the ID back; and the format is the path shape of the
type's `-id` example: formatting what the example parses to gives the example. -/
theorem parse_format_roundtrip :
    (∀ d ∈ resourceids, ∀ id : ResourceId,
      valueCount (shapeOf d.id) = 2 + id.Names.length →
      (∀ v ∈ id.SubscriptionId :: id.ResourceGroup :: id.Names, v ≠ "" ∧ '/' ∉ v.data) →
      parse d.id (format d.id id) = some id) ∧
    (∀ d ∈ resourceids, (parse d.id d.id).map (format d.id) = some d.id) := by
  refine ⟨?_, by decide⟩
  intro d hd id hlen hval
  exact parse_format_of_shape d.id id
    (fun s hs => fixed_segments_no_slash d hd s (mem_fixedNames _ _ hs)) hlen
    (fun v hv => (hval v hv).2)

/-- Witness of C3 at the `StorageContainerResourceManager` type. -/
theorem parse_format_roundtrip_witness :
    parse "/subscriptions/12345678-1234-9876-4563-123456789012/resourceGroups/resGroup1/providers/Microsoft.Storage/storageAccounts/storageAccount1/blobServices/default/containers/container1"
      (format "/subscriptions/12345678-1234-9876-4563-123456789012/resourceGroups/resGroup1/providers/Microsoft.Storage/storageAccounts/storageAccount1/blobServices/default/containers/container1"
        ⟨"sub-1", "rg-1", ["acct", "default", "c1"]⟩)
      = some ⟨"sub-1", "rg-1", ["acct", "default", "c1"]⟩ :=
  parse_format_roundtrip.1
    ⟨"./", "StorageContainerResourceManager", "/subscriptions/12345678-1234-9876-4563-123456789012/resourceGroups/resGroup1/providers/Microsoft.Storage/storageAccounts/storageAccount1/blobServices/default/containers/container1"⟩
    (by decide) ⟨"sub-1", "rg-1", ["acct", "default", "c1"]⟩ (by decide) (by decide)

theorem length_shapeFrom (k : Nat) (ss : List String) : (shapeFrom k ss).length = ss.length := by
  induction ss generalizing k with
  | nil => rfl
  | cons s ss ih => simp [shapeFrom, ih]

theorem shapeFrom_getElem? (k j : Nat) (ss : List String) :
    (shapeFrom k ss)[j]? =
      ss[j]?.map (fun s => if (k + j) % 2 = 0 ∨ k + j = 5 then Segment.fixed s else Segment.value) := by
  induction ss generalizing k j with
  | nil => simp [shapeFrom]
  | cons s ss ih =>
    cases j with
    | zero => simp [shapeFrom]
    | succ j =>
      simp only [shapeFrom, List.getElem?_cons_succ, ih]
      have : k + 1 + j = k + (j + 1) := by omega
      rw [this]

theorem matchSegments_some (sh : List Segment) (segs vs : List String)
    (h : matchSegments sh segs = some vs) :
    segs.length = sh.length ∧
      ∀ (i : Nat) (s : String), sh[i]? = some (Segment.fixed s) → segs[i]? = some s := by
  induction sh generalizing segs vs with
  | nil =>
    cases segs with
    | nil => simp
    | cons a segs => simp [matchSegments] at h
  | cons seg sh ih =>
    cases segs with
    | nil => cases seg <;> simp [matchSegments] at h
    | cons a segs =>
      cases seg with
      | fixed k =>
        simp only [matchSegments] at h
        split at h
        · rename_i hak
          obtain ⟨hl, hf⟩ := ih segs vs h
          refine ⟨by simp [hl], ?_⟩
          intro i s hi
          cases i with
          | zero => simp at hi; simp [hak, hi]
          | succ i => simpa using hf i s (by simpa using hi)
        · cases h
      | value =>
        simp only [matchSegments, Option.map_eq_some'] at h
        obtain ⟨vs', hvs, _⟩ := h
        obtain ⟨hl, hf⟩ := ih segs vs' hvs
        refine ⟨by simp [hl], ?_⟩
        intro i s hi
        cases i with
        | zero => simp at hi
        | succ i => simpa using hf i s (by simpa using hi)

theorem segments_ne_nil (s : String) : segments s ≠ [] := by
  unfold segments
  intro h
  exact List.splitOnP_ne_nil _ _ (List.map_eq_nil_iff.1 h)

theorem parse_some_shape (e input : String) (id : ResourceId) (h : parse e input = some id) :
    (segments input).length = (segments e).length ∧
      ∀ i : Nat, (i % 2 = 1 ∨ i = 6) → i < (segments e).length →
        (segments input)[i]? = (segments e)[i]? := by
  unfold parse at h
  split at h
  · rename_i rest hseg
    split at h
    · rename_i sub rg names hm
      obtain ⟨hl, hf⟩ := matchSegments_some _ _ _ hm
      have hne := segments_ne_nil e
      cases hse : segments e with
      | nil => exact absurd hse hne
      | cons e0 es =>
        have hsh : shapeOf e = shapeFrom 0 es := by simp [shapeOf, hse]
        rw [hsh] at hl hf
        rw [hseg]
        refine ⟨by simp [hl, length_shapeFrom], ?_⟩
        intro i hi hlt
        cases i with
        | zero => omega
        | succ i =>
          simp only [List.length_cons, Nat.add_lt_add_iff_right] at hlt
          simp only [List.getElem?_cons_succ]
          have hget : es[i]? = some es[i] := List.getElem?_eq_getElem hlt
          rw [hget]
          apply hf i es[i]
          rw [shapeFrom_getElem?, hget]
          simp only [Nat.zero_add, Option.map_some']
          have : i % 2 = 0 ∨ i = 5 := by omega
          simp [this]
    · cases h
  · cases h

/-- C4: for each resource-ID type of `resourceids.go`, an input whose number of path segments
differs from that of the type's shape, or which differs from it at a fixed segment (the odd
positions `subscriptions`, `resourceGroups`, `providers` and the resource-type keys, and the
provider namespace at position 6), is rejected by the type's parser; in particular the example
ID of one type is rejected by the parser of every other type. -/
theorem parse_rejects_mismatch :
    (∀ d ∈ resourceids, ∀ input : String,
      ((segments input).length ≠ (segments d.id).length ∨
        ∃ i : Nat, (i % 2 = 1 ∨ i = 6) ∧ i < (segments d.id).length ∧
          (segments input)[i]? ≠ (segments d.id)[i]?) →
      parse d.id input = none) ∧
    (∀ d ∈ resourceids, ∀ e ∈ resourceids, d.name ≠ e.name → parse e.id d.id = none) := by
  refine ⟨?_, by decide⟩
  intro d _ input hmis
  cases hp : parse d.id input with
  | none => rfl
  | some id =>
    obtain ⟨hl, hf⟩ := parse_some_shape _ _ _ hp
    rcases hmis with h | ⟨i, hi, hlt, hne⟩
    · exact absurd hl h
    · exact absurd (hf i hi hlt) hne

/-- Witness of C4: the `StorageAccount` parser rejects an input with too few segments. -/
theorem parse_rejects_mismatch_witness :
    (segments "/subscriptions/abc").length ≠ (segments "/subscriptions/12345678-1234-9876-4563-123456789012/resourceGroups/resGroup1/providers/Microsoft.Storage/storageAccounts/storageAccount1").length ∧
    parse "/subscriptions/12345678-1234-9876-4563-123456789012/resourceGroups/resGroup1/providers/Microsoft.Storage/storageAccounts/storageAccount1" "/subscriptions/abc" = none :=
  ⟨by decide,
    parse_rejects_mismatch.1 ⟨"./", "StorageAccount", "/subscriptions/12345678-1234-9876-4563-123456789012/resourceGroups/resGroup1/providers/Microsoft.Storage/storageAccounts/storageAccount1"⟩ (by decide) "/subscriptions/abc"
      (Or.inl (by decide))⟩

/-- C8: each of the eleven `-id` examples, split on `/`, has an empty first segment, the keys
`subscriptions`, `resourceGroups`, `providers` at positions 1, 3 and 5, no empty segment after
the first, and after the provider namespace (position 6) a positive even number of segments,
that is one or more `{resourceType}/{name}` pairs; and the eleven `-name` values are pairwise
distinct. -/
theorem resourceids_shape :
    resourceids.length = 11 ∧
    (∀ d ∈ resourceids,
      (segments d.id)[0]? = some "" ∧
      (segments d.id)[1]? = some "subscriptions" ∧
      (segments d.id)[3]? = some "resourceGroups" ∧
      (segments d.id)[5]? = some "providers" ∧
      (∀ s ∈ (segments d.id).drop 1, s ≠ "") ∧
      0 < ((segments d.id).drop 7).length ∧
      ((segments d.id).drop 7).length % 2 = 0) ∧
    (resourceids.map fun d => d.name).Nodup := by
  decide

end Storage

namespace Blueprints

theorem contains_append_left (a b x : String) (h : Contains a x) : Contains (a ++ b) x := by
  unfold Contains at *
  rw [String.data_append]
  exact h.trans (List.infix_append' [] a.data b.data |>.trans (by simp)) 

theorem contains_append_right (a b x : String) (h : Contains b x) : Contains (a ++ b) x := by
  unfold Contains at *
  rw [String.data_append]
  exact h.trans (List.suffix_append _ _).isInfix

theorem contains_self (x : String) : Contains x x := List.infix_refl _

theorem versionLoop_eq (vs : List PublishedBlueprint) (acc : List String) :
    versionLoop vs acc = acc ++
      (vs.filter fun v => v.PublishedBlueprintProperties.isSome && v.Name.isSome).filterMap
        (fun v => v.Name) := by
  induction vs generalizing acc with
  | nil => simp [versionLoop]
  | cons v vs ih =>
    obtain ⟨p, n⟩ := v
    cases p <;> cases n <;> simp [versionLoop, ih]

/-- C2: after a successful `Get` with a non-empty ID and a successful listing, the handler
returns no error and `versions` holds exactly the names of the listed entries whose
`PublishedBlueprintProperties` and `Name` are both non-nil, in listing order; it is a list
even when no entry qualifies (then the empty list). -/
theorem versions_flattened (table : Char → Bool) (client : Client) (d : ResourceData)
    (resp : Model) (id : String) (versions : List PublishedBlueprint)
    (hget : client.BlueprintsClient (d.Get "scope_id") (d.Get "name") = (resp, none))
    (hid : resp.ID = some id) (hne : id ≠ "")
    (hlist : client.PublishedBlueprintsClient (d.Get "scope_id") (d.Get "name") = (versions, none)) :
    (dataSourceBlueprintDefinitionRead table client d).err = none ∧
    (dataSourceBlueprintDefinitionRead table client d).d.fields "versions" =
      some (Value.list ((versions.filter fun v =>
        v.PublishedBlueprintProperties.isSome && v.Name.isSome).filterMap fun v => v.Name)) ∧
    ((∀ v ∈ versions, v.PublishedBlueprintProperties = none ∨ v.Name = none) →
      (dataSourceBlueprintDefinitionRead table client d).d.fields "versions" =
        some (Value.list [])) := by
  have hmain : (dataSourceBlueprintDefinitionRead table client d).d.fields "versions" =
      some (Value.list ((versions.filter fun v =>
        v.PublishedBlueprintProperties.isSome && v.Name.isSome).filterMap fun v => v.Name)) := by
    simp [dataSourceBlueprintDefinitionRead, hget, hid, hne, hlist, versionLoop_eq,
      ResourceData.Set]
  refine ⟨?_, hmain, ?_⟩
  · simp [dataSourceBlueprintDefinitionRead, hget, hid, hne, hlist]
  · intro hnone
    rw [hmain]
    have : (versions.filter fun v =>
        v.PublishedBlueprintProperties.isSome && v.Name.isSome) = [] := by
      rw [List.filter_eq_nil_iff]
      intro v hv
      rcases hnone v hv with h | h <;> simp [h]
    rw [this]
    rfl

/-- Witness of C2: of four listed entries the two complete ones are kept, in order. -/
theorem versions_flattened_witness :
    (dataSourceBlueprintDefinitionRead asciiOnly okClient sampleData).err = none ∧
    (dataSourceBlueprintDefinitionRead asciiOnly okClient sampleData).d.fields "versions" =
      some (Value.list ["v1", "v3"]) :=
  have h := versions_flattened asciiOnly okClient sampleData sampleModel
    "/subscriptions/0000/providers/Microsoft.Blueprint/blueprints/bp1" _ rfl rfl (by decide) rfl
  ⟨h.1, h.2.1⟩


theorem quote_contains_of_plain (table : Char → Bool) (s : String)
    (h : ∀ c ∈ s.data, c ≠ '"' ∧ c ≠ '\\' ∧ IsPrint table c = true) :
    Contains (Quote table s) s := by
  have hflat : s.data.flatMap (appendEscapedRune table) = s.data := by
    generalize s.data = l at h
    induction l with
    | nil => rfl
    | cons c l ih =>
      have hc := h c (List.mem_cons_self _ _)
      have hl := ih (fun x hx => h x (List.mem_cons_of_mem _ hx))
      simp only [List.flatMap_cons, hl]
      simp [appendEscapedRune, hc.1, hc.2.1, hc.2.2]
  unfold Contains Quote
  simp only [hflat]
  exact ⟨['"'], ['"'], by simp⟩

/-- Counterexample to C1 as stated: on a fresh data source (empty ID) whose `Get` fails with
HTTP 404, it is not the case that the ID is empty afterwards and no error is returned: the
handler returns an error. -/
theorem notFound_returns_error_counterexample :
    ¬ ((dataSourceBlueprintDefinitionRead asciiOnly notFoundClient sampleData).d.id = "" ∧
       (dataSourceBlueprintDefinitionRead asciiOnly notFoundClient sampleData).err = none) := by
  decide

/-- C1 as amended: when `Get` fails with a not-found response, the handler returns an error
saying that the blueprint definition was not found, with the `%q` renderings of name and scope
and the SDK error; the resource data, its ID included, is left as it was (nothing is removed),
and published versions are not listed. -/
theorem notFound_reports_error (table : Char → Bool) (client : Client) (d : ResourceData)
    (resp : Model) (e : String)
    (hget : client.BlueprintsClient (d.Get "scope_id") (d.Get "name") = (resp, some e))
    (h404 : ResponseWasNotFound resp.Response = true) :
    (dataSourceBlueprintDefinitionRead table client d).err =
      some ("Blueprint Definition " ++ Quote table (d.Get "name") ++ " not found in Scope ("
        ++ Quote table (d.Get "scope_id") ++ "): " ++ e) ∧
    (dataSourceBlueprintDefinitionRead table client d).d = d ∧
    (dataSourceBlueprintDefinitionRead table client d).calls =
      [Call.Get (d.Get "scope_id") (d.Get "name")] := by
  simp [dataSourceBlueprintDefinitionRead, hget, h404]

/-- Witness of the amended C1 on the sample 404 backend. -/
theorem notFound_reports_error_witness :
    (dataSourceBlueprintDefinitionRead asciiOnly notFoundClient sampleData).err =
      some ("Blueprint Definition " ++ Quote asciiOnly (sampleData.Get "name")
        ++ " not found in Scope (" ++ Quote asciiOnly (sampleData.Get "scope_id") ++ "): "
        ++ "StatusCode=404") ∧
    (dataSourceBlueprintDefinitionRead asciiOnly notFoundClient sampleData).d = sampleData ∧
    (dataSourceBlueprintDefinitionRead asciiOnly notFoundClient sampleData).calls =
      [Call.Get (sampleData.Get "scope_id") (sampleData.Get "name")] :=
  notFound_reports_error asciiOnly notFoundClient sampleData
    ⟨some 404, none, none, none, ⟨"", ""⟩, ""⟩ "StatusCode=404" rfl rfl

/-- Counterexample to C5 as stated: for the name `a"b` the message of the read failure holds
the `%q` rendering `"a\"b"`, in which the name itself does not occur, so no returned message
contains both the name and the scope. -/
theorem readFailed_message_counterexample :
    ¬ ∃ msg, (dataSourceBlueprintDefinitionRead asciiOnly failingClient quotedNameData).err
        = some msg ∧
      Contains msg (quotedNameData.Get "name") ∧ Contains msg (quotedNameData.Get "scope_id") := by
  rintro ⟨msg, hmsg, hname, -⟩
  have h : (dataSourceBlueprintDefinitionRead asciiOnly failingClient quotedNameData).err =
      some "Read failed for Blueprint Definition (\"a\\\"b\") in Sccope (\"/subscriptions/0000\"): StatusCode=500" := by
    decide
  rw [h] at hmsg
  cases hmsg
  revert hname
  decide

/-- C5 as amended: when `Get` fails with an error that is not a not-found response, the handler
returns an error whose message contains the `%q` renderings of the blueprint name and of the
scope, hence the name (the scope) itself whenever it holds only printable characters other
than the double quote and the backslash; the resource data is left unchanged and published
versions are not listed. -/
theorem readFailed_reports_error (table : Char → Bool) (client : Client) (d : ResourceData)
    (resp : Model) (e : String)
    (hget : client.BlueprintsClient (d.Get "scope_id") (d.Get "name") = (resp, some e))
    (h404 : ResponseWasNotFound resp.Response = false) :
    (∃ msg, (dataSourceBlueprintDefinitionRead table client d).err = some msg ∧
      Contains msg (Quote table (d.Get "name")) ∧
      Contains msg (Quote table (d.Get "scope_id")) ∧
      ((∀ c ∈ (d.Get "name").data, c ≠ '"' ∧ c ≠ '\\' ∧ IsPrint table c = true) →
        Contains msg (d.Get "name")) ∧
      ((∀ c ∈ (d.Get "scope_id").data, c ≠ '"' ∧ c ≠ '\\' ∧ IsPrint table c = true) →
        Contains msg (d.Get "scope_id"))) ∧
    (dataSourceBlueprintDefinitionRead table client d).d = d ∧
    (dataSourceBlueprintDefinitionRead table client d).calls =
      [Call.Get (d.Get "scope_id") (d.Get "name")] := by
  have hn : Contains ("Read failed for Blueprint Definition (" ++ Quote table (d.Get "name")
      ++ ") in Sccope (" ++ Quote table (d.Get "scope_id") ++ "): " ++ e)
      (Quote table (d.Get "name")) :=
    contains_append_left _ _ _ (contains_append_left _ _ _ (contains_append_left _ _ _
      (contains_append_left _ _ _ (contains_append_right _ _ _ (contains_self _)))))
  have hs : Contains ("Read failed for Blueprint Definition (" ++ Quote table (d.Get "name")
      ++ ") in Sccope (" ++ Quote table (d.Get "scope_id") ++ "): " ++ e)
      (Quote table (d.Get "scope_id")) :=
    contains_append_left _ _ _ (contains_append_left _ _ _
      (contains_append_right _ _ _ (contains_self _)))
  refine ⟨⟨_, ?_, hn, hs, ?_, ?_⟩, ?_, ?_⟩
  · simp [dataSourceBlueprintDefinitionRead, hget, h404]
  · intro h
    exact List.IsInfix.trans (quote_contains_of_plain table _ h) hn
  · intro h
    exact List.IsInfix.trans (quote_contains_of_plain table _ h) hs
  · simp [dataSourceBlueprintDefinitionRead, hget, h404]
  · simp [dataSourceBlueprintDefinitionRead, hget, h404]


/-- Witness of the amended C5 on the sample 500 backend. -/
theorem readFailed_reports_error_witness :
    (∃ msg, (dataSourceBlueprintDefinitionRead asciiOnly failingClient sampleData).err
        = some msg ∧
      Contains msg (Quote asciiOnly (sampleData.Get "name")) ∧
      Contains msg (Quote asciiOnly (sampleData.Get "scope_id"))) ∧
    (dataSourceBlueprintDefinitionRead asciiOnly failingClient sampleData).d = sampleData :=
  have h := readFailed_reports_error asciiOnly failingClient sampleData
    ⟨some 500, none, none, none, ⟨"", ""⟩, ""⟩ "StatusCode=500" rfl rfl
  ⟨⟨h.1.choose, h.1.choose_spec.1, h.1.choose_spec.2.1, h.1.choose_spec.2.2.1⟩, h.2.1⟩

/-- C6: after a successful `Get` with a non-empty ID, `description` holds the response's
`Description` when that is non-nil and keeps its prior value when it is nil; likewise
`display_name` and `DisplayName`. -/
theorem description_written_iff_present (table : Char → Bool) (client : Client)
    (d : ResourceData) (resp : Model) (id : String)
    (hget : client.BlueprintsClient (d.Get "scope_id") (d.Get "name") = (resp, none))
    (hid : resp.ID = some id) (hne : id ≠ "") :
    (∀ v, resp.Description = some v →
      (dataSourceBlueprintDefinitionRead table client d).d.fields "description"
        = some (Value.str v)) ∧
    (resp.Description = none →
      (dataSourceBlueprintDefinitionRead table client d).d.fields "description"
        = d.fields "description") ∧
    (∀ v, resp.DisplayName = some v →
      (dataSourceBlueprintDefinitionRead table client d).d.fields "display_name"
        = some (Value.str v)) ∧
    (resp.DisplayName = none →
      (dataSourceBlueprintDefinitionRead table client d).d.fields "display_name"
        = d.fields "display_name") := by
  rcases hl : client.PublishedBlueprintsClient (d.Get "scope_id") (d.Get "name") with ⟨vs, _ | e⟩ <;>
    rcases hd : resp.Description with _ | a <;> rcases hn : resp.DisplayName with _ | b <;>
    simp [dataSourceBlueprintDefinitionRead, hget, hid, hne, hl, hd, hn, ResourceData.Set,
      ResourceData.SetId]

/-- Witness of C6: a response with a description and no display name. -/
theorem description_written_iff_present_witness :
    (dataSourceBlueprintDefinitionRead asciiOnly okClient sampleData).d.fields "description"
        = some (Value.str "a description") ∧
    (dataSourceBlueprintDefinitionRead asciiOnly okClient sampleData).d.fields "display_name"
        = sampleData.fields "display_name" :=
  have h := description_written_iff_present asciiOnly okClient sampleData sampleModel
    "/subscriptions/0000/providers/Microsoft.Blueprint/blueprints/bp1" rfl rfl (by decide)
  ⟨h.1 "a description" rfl, h.2.2.2 rfl⟩

/-- Counterexample to C9 as stated: for the name `a"b` and a response with an empty ID, the
returned message holds the `%q` rendering `"a\"b"`, in which the name itself does not occur, so
no returned message contains the blueprint name. -/
theorem missing_id_message_counterexample :
    ¬ ∃ msg, (dataSourceBlueprintDefinitionRead asciiOnly noIdClient quotedNameData).err
        = some msg ∧
      Contains msg (quotedNameData.Get "name") := by
  rintro ⟨msg, hmsg, hname⟩
  have h : (dataSourceBlueprintDefinitionRead asciiOnly noIdClient quotedNameData).err =
      some "Failed to retrieve ID for Blueprint \"a\\\"b\"" := by
    decide
  rw [h] at hmsg
  cases hmsg
  revert hname
  decide

/-- C9 as amended: after a successful `Get`, the handler returns no error only if the response
ID is non-nil and non-empty, in which case the state ID is that ID; a non-nil, non-empty
response ID is written to the state ID whatever the listing then does, and no error is returned
when the listing succeeds; when the response ID is nil or empty the handler returns an error
whose message is `Failed to retrieve ID for Blueprint` followed by the `%q` rendering of the
name, so it contains that rendering, and the name itself whenever the name holds only printable
characters other than the double quote and the backslash; the resource data is then left
unchanged and published versions are not listed. -/
theorem missing_id_is_an_error (table : Char → Bool) (client : Client) (d : ResourceData)
    (resp : Model)
    (hget : client.BlueprintsClient (d.Get "scope_id") (d.Get "name") = (resp, none)) :
    ((dataSourceBlueprintDefinitionRead table client d).err = none →
      ∃ id, resp.ID = some id ∧ id ≠ "" ∧
        (dataSourceBlueprintDefinitionRead table client d).d.id = id) ∧
    (∀ id, resp.ID = some id → id ≠ "" →
      (dataSourceBlueprintDefinitionRead table client d).d.id = id) ∧
    (∀ id versions, resp.ID = some id → id ≠ "" →
      client.PublishedBlueprintsClient (d.Get "scope_id") (d.Get "name") = (versions, none) →
      (dataSourceBlueprintDefinitionRead table client d).err = none) ∧
    ((resp.ID = none ∨ resp.ID = some "") →
      (∃ msg, (dataSourceBlueprintDefinitionRead table client d).err = some msg ∧
        msg = "Failed to retrieve ID for Blueprint " ++ Quote table (d.Get "name") ∧
        Contains msg (Quote table (d.Get "name")) ∧
        ((∀ c ∈ (d.Get "name").data, c ≠ '"' ∧ c ≠ '\\' ∧ IsPrint table c = true) →
          Contains msg (d.Get "name"))) ∧
      (dataSourceBlueprintDefinitionRead table client d).d = d ∧
      (dataSourceBlueprintDefinitionRead table client d).calls =
        [Call.Get (d.Get "scope_id") (d.Get "name")]) := by
  refine ⟨?_, ?_, ?_, ?_⟩
  · rcases hid : resp.ID with _ | id
    · simp [dataSourceBlueprintDefinitionRead, hget, hid]
    · by_cases hne : id = ""
      · simp [dataSourceBlueprintDefinitionRead, hget, hid, hne]
      · rcases hl : client.PublishedBlueprintsClient (d.Get "scope_id") (d.Get "name")
          with ⟨vs, _ | e⟩ <;>
        rcases hd : resp.Description with _ | a <;> rcases hn : resp.DisplayName with _ | b <;>
        simp [dataSourceBlueprintDefinitionRead, hget, hid, hne, hl, hd, hn, ResourceData.Set,
          ResourceData.SetId]
  · intro id hid hne
    rcases hl : client.PublishedBlueprintsClient (d.Get "scope_id") (d.Get "name")
      with ⟨vs, _ | e⟩ <;>
    rcases hd : resp.Description with _ | a <;> rcases hn : resp.DisplayName with _ | b <;>
    simp [dataSourceBlueprintDefinitionRead, hget, hid, hne, hl, hd, hn, ResourceData.Set,
      ResourceData.SetId]
  · intro id versions hid hne hl
    simp [dataSourceBlueprintDefinitionRead, hget, hid, hne, hl]
  · intro h
    have hq : Contains ("Failed to retrieve ID for Blueprint " ++ Quote table (d.Get "name"))
        (Quote table (d.Get "name")) := contains_append_right _ _ _ (contains_self _)
    refine ⟨⟨_, ?_, rfl, hq, fun hp =>
      List.IsInfix.trans (quote_contains_of_plain table _ hp) hq⟩, ?_, ?_⟩ <;>
      rcases h with h | h <;> simp [dataSourceBlueprintDefinitionRead, hget, h]

/-- Witness of the amended C9: a response with an empty ID is an error that contains the plain
name `bp1` and writes nothing; a response with an ID and a successful listing returns no error
and sets the state ID. -/
theorem missing_id_is_an_error_witness :
    ((∃ msg, (dataSourceBlueprintDefinitionRead asciiOnly noIdClient sampleData).err = some msg ∧
        Contains msg "bp1") ∧
      (dataSourceBlueprintDefinitionRead asciiOnly noIdClient sampleData).d = sampleData) ∧
    ((dataSourceBlueprintDefinitionRead asciiOnly okClient sampleData).err = none ∧
      (dataSourceBlueprintDefinitionRead asciiOnly okClient sampleData).d.id
        = "/subscriptions/0000/providers/Microsoft.Blueprint/blueprints/bp1") :=
  have h := (missing_id_is_an_error asciiOnly noIdClient sampleData
    { sampleModel with ID := some "" } rfl).2.2.2 (Or.inr rfl)
  have k := missing_id_is_an_error asciiOnly okClient sampleData sampleModel rfl
  ⟨⟨⟨h.1.choose, h.1.choose_spec.1, h.1.choose_spec.2.2.2 (by decide)⟩, h.2.1⟩,
    ⟨k.2.2.1 _ _ rfl (by decide) rfl, k.2.1 _ rfl (by decide)⟩⟩

/-- C10: after a successful `Get` with a non-empty ID, when the listing fails the handler
returns an error whose message contains that ID and leaves `versions` at its prior value, while
the ID, `last_modified`, `time_created`, `target_scope` and the non-nil ones of `description` and
`display_name` are already written from the response; and on every path `name` and `scope_id`
are left as they were. -/
theorem list_failure_keeps_partial_state (table : Char → Bool) (client : Client)
    (d : ResourceData) (resp : Model) (id : String) (versions : List PublishedBlueprint)
    (e : String)
    (hget : client.BlueprintsClient (d.Get "scope_id") (d.Get "name") = (resp, none))
    (hid : resp.ID = some id) (hne : id ≠ "")
    (hlist : client.PublishedBlueprintsClient (d.Get "scope_id") (d.Get "name")
      = (versions, some e)) :
    ((∃ msg, (dataSourceBlueprintDefinitionRead table client d).err = some msg ∧
        Contains msg id) ∧
      (dataSourceBlueprintDefinitionRead table client d).d.fields "versions"
        = d.fields "versions" ∧
      (dataSourceBlueprintDefinitionRead table client d).d.id = id ∧
      (dataSourceBlueprintDefinitionRead table client d).d.fields "last_modified"
        = some (Value.str resp.Status.LastModified) ∧
      (dataSourceBlueprintDefinitionRead table client d).d.fields "time_created"
        = some (Value.str resp.Status.TimeCreated) ∧
      (dataSourceBlueprintDefinitionRead table client d).d.fields "target_scope"
        = some (Value.str resp.TargetScope) ∧
      (∀ v, resp.Description = some v →
        (dataSourceBlueprintDefinitionRead table client d).d.fields "description"
          = some (Value.str v)) ∧
      (∀ v, resp.DisplayName = some v →
        (dataSourceBlueprintDefinitionRead table client d).d.fields "display_name"
          = some (Value.str v))) ∧
    (∀ (t : Char → Bool) (c : Client) (d0 : ResourceData),
      (dataSourceBlueprintDefinitionRead t c d0).d.fields "name" = d0.fields "name" ∧
      (dataSourceBlueprintDefinitionRead t c d0).d.fields "scope_id" = d0.fields "scope_id") := by
  refine ⟨⟨⟨"listing blue print versions for " ++ id ++ " error: " ++ e, ?_,
    contains_append_left _ _ _ (contains_append_left _ _ _
      (contains_append_right _ _ _ (contains_self _)))⟩, ?_⟩, ?_⟩
  · rcases hd : resp.Description with _ | a <;> rcases hn : resp.DisplayName with _ | b <;>
      simp [dataSourceBlueprintDefinitionRead, hget, hid, hne, hlist, hd, hn]
  · rcases hd : resp.Description with _ | a <;> rcases hn : resp.DisplayName with _ | b <;>
      simp [dataSourceBlueprintDefinitionRead, hget, hid, hne, hlist, hd, hn, ResourceData.Set,
        ResourceData.SetId]
  · intro t c d0
    rcases hg : c.BlueprintsClient (d0.Get "scope_id") (d0.Get "name") with ⟨r, _ | e0⟩
    · rcases hi : r.ID with _ | i
      · simp [dataSourceBlueprintDefinitionRead, hg, hi]
      · by_cases hz : i = ""
        · simp [dataSourceBlueprintDefinitionRead, hg, hi, hz]
        · rcases hl : c.PublishedBlueprintsClient (d0.Get "scope_id") (d0.Get "name")
            with ⟨vs, _ | e1⟩ <;>
          rcases hd : r.Description with _ | a <;> rcases hn : r.DisplayName with _ | b <;>
          simp [dataSourceBlueprintDefinitionRead, hg, hi, hz, hl, hd, hn, ResourceData.Set,
            ResourceData.SetId]
    · by_cases h4 : ResponseWasNotFound r.Response = true
      · simp [dataSourceBlueprintDefinitionRead, hg, h4]
      · simp [dataSourceBlueprintDefinitionRead, hg, h4]

/-- Witness of C10 on the sample backend whose listing fails. -/
theorem list_failure_keeps_partial_state_witness :
    (∃ msg, (dataSourceBlueprintDefinitionRead asciiOnly listFailingClient sampleData).err
        = some msg ∧
      Contains msg "/subscriptions/0000/providers/Microsoft.Blueprint/blueprints/bp1") ∧
    (dataSourceBlueprintDefinitionRead asciiOnly listFailingClient sampleData).d.fields "versions"
      = sampleData.fields "versions" ∧
    (dataSourceBlueprintDefinitionRead asciiOnly listFailingClient sampleData).d.id
      = "/subscriptions/0000/providers/Microsoft.Blueprint/blueprints/bp1" :=
  have h := (list_failure_keeps_partial_state asciiOnly listFailingClient sampleData sampleModel
    "/subscriptions/0000/providers/Microsoft.Blueprint/blueprints/bp1" [] "StatusCode=500"
    rfl rfl (by decide) rfl).1
  ⟨h.1, h.2.1, h.2.2.1⟩

end Blueprints

namespace ManagedApplications


theorem fieldValue_basic (data : TestData) :
    fieldValue (basic data) "name" = some ("acctestManagedApp" ++ fmtD data.RandomInteger) ∧
    fieldValue (basic data) "managed_resource_group_name"
      = some ("infraGroup" ++ fmtD data.RandomInteger) ∧
    fieldValue (basic data) "location" = some data.LocationsPrimary ∧
    fieldValue (basic data) "resource_group_name"
      = some ("acctestRG-mapp-" ++ fmtD data.RandomInteger) := by
  refine ⟨?_, ?_, ?_, ?_⟩ <;>
    simp [fieldValue, attrValue, findResource, basic, template, List.find?, List.lookup]

theorem fieldValue_complete (data : TestData) :
    fieldValue (complete data) "name"
      = some ("acctestCompleteManagedApp" ++ fmtD data.RandomInteger) ∧
    fieldValue (complete data) "managed_resource_group_name"
      = some ("completeInfraGroup" ++ fmtD data.RandomInteger) ∧
    fieldValue (complete data) "location" = some data.LocationsPrimary ∧
    fieldValue (complete data) "resource_group_name"
      = some ("acctestRG-mapp-" ++ fmtD data.RandomInteger) := by
  refine ⟨?_, ?_, ?_, ?_⟩ <;>
    simp [fieldValue, attrValue, findResource, complete, List.find?, List.lookup]

theorem append_ne_of_head_ne (a b x : String) (h : a ≠ b) : a ++ x ≠ b ++ x := by
  intro he
  have hd : a.data ++ x.data = b.data ++ x.data := by
    simpa [String.data_append] using congrArg String.data he
  exact h (String.ext (List.append_cancel_right hd))

/-- Counterexample to C7 as stated: on the sample test data the four fields do not all have the
same value in every step's configuration. -/
theorem update_preserves_fields_counterexample :
    ¬ ∀ f ∈ ["name", "location", "resource_group_name", "managed_resource_group_name"],
      ∀ c₁ ∈ stepConfigs (testAccManagedApplication_update sampleTestData),
      ∀ c₂ ∈ stepConfigs (testAccManagedApplication_update sampleTestData),
        fieldValue c₁ f = fieldValue c₂ f := by
  decide

/-- C7 as amended: the steps of `testAccManagedApplication_update` apply `basic(data)`,
`complete(data)`, `basic(data)`; `location` and `resource_group_name` of
`azurerm_managed_application.test` have the same values in all three; `name` and
`managed_resource_group_name` have the same values in the first and third, and different ones
in the second (`acctestCompleteManagedApp%d`, `completeInfraGroup%d`). -/
theorem update_preserves_location_and_group (data : TestData) :
    stepConfigs (testAccManagedApplication_update data)
      = [basic data, complete data, basic data] ∧
    (stepConfigs (testAccManagedApplication_update data)).map (fieldValue · "location")
      = [some data.LocationsPrimary, some data.LocationsPrimary, some data.LocationsPrimary] ∧
    (stepConfigs (testAccManagedApplication_update data)).map (fieldValue · "resource_group_name")
      = [some ("acctestRG-mapp-" ++ fmtD data.RandomInteger),
         some ("acctestRG-mapp-" ++ fmtD data.RandomInteger),
         some ("acctestRG-mapp-" ++ fmtD data.RandomInteger)] ∧
    (stepConfigs (testAccManagedApplication_update data)).map (fieldValue · "name")
      = [some ("acctestManagedApp" ++ fmtD data.RandomInteger),
         some ("acctestCompleteManagedApp" ++ fmtD data.RandomInteger),
         some ("acctestManagedApp" ++ fmtD data.RandomInteger)] ∧
    (stepConfigs (testAccManagedApplication_update data)).map
        (fieldValue · "managed_resource_group_name")
      = [some ("infraGroup" ++ fmtD data.RandomInteger),
         some ("completeInfraGroup" ++ fmtD data.RandomInteger),
         some ("infraGroup" ++ fmtD data.RandomInteger)] ∧
    "acctestManagedApp" ++ fmtD data.RandomInteger
      ≠ "acctestCompleteManagedApp" ++ fmtD data.RandomInteger ∧
    "infraGroup" ++ fmtD data.RandomInteger
      ≠ "completeInfraGroup" ++ fmtD data.RandomInteger := by
  have hsteps : stepConfigs (testAccManagedApplication_update data)
      = [basic data, complete data, basic data] := rfl
  obtain ⟨bn, bm, bl, br⟩ := fieldValue_basic data
  obtain ⟨cn, cm, cl, cr⟩ := fieldValue_complete data
  refine ⟨hsteps, ?_, ?_, ?_, ?_, ?_, ?_⟩
  · simp [hsteps, bl, cl]
  · simp [hsteps, br, cr]
  · simp [hsteps, bn, cn]
  · simp [hsteps, bm, cm]
  · exact append_ne_of_head_ne _ _ _ (by decide)
  · exact append_ne_of_head_ne _ _ _ (by decide)

end ManagedApplications
